import Mathlib

/-!
Shallow embedding of the telecom dashboard's in-memory data-processing core
(`DataProcessor`, `TelecomDataService`, `AdminDashboardController`'s chart
average extraction, `MapManager`'s per-area best-operator computation,
`TableManager`'s sorting, and `InsightsManager`'s threshold classification),
together with theorems settling the specification claims about it.

Modelling conventions, applied uniformly:
* A JavaScript number that can be `NaN` (for instance the result of adding an
  absent field) is modelled as `Option ℚ`, with `none` standing for
  `NaN`/`undefined`; JS arithmetic propagates `none` and JS `>` comparisons
  against `none` are false.
* `x.toFixed(2)` string formatting is abstracted to the underlying rational
  value: no claim below depends on decimal rendering, only on ordering and
  equality of the displayed numbers, which the uniform rounding preserves.
* A JS object literal used as a keyed accumulator is an insertion-ordered
  association list (`List (κ × β)`): updating an existing key keeps its
  position, a new key is appended at the end, exactly like JS string-keyed
  object insertion order (`upsert`).
* JS `Array.prototype.sort` with a numeric comparator is modelled by the
  stable `List.mergeSort`.  A `NaN` sort key (comparator behaviour that JS
  leaves unspecified) is ordered first via `WithBot ℚ`; no claim depends on
  that case.
-/

namespace Telecom

/-- JS numeric value: `none` models `NaN` or an absent (`undefined`) field. -/
abbrev JSNum := Option ℚ

/-- JS addition: `undefined`/`NaN` on either side poisons the result (`NaN`). -/
def jsAdd (a b : JSNum) : JSNum :=
  match a, b with
  | some x, some y => some (x + y)
  | _, _ => none

/-- JS `x || 0` on a numeric field: an absent or `NaN` value becomes `0`
(and `0` itself stays `0`). -/
def orZero (a : JSNum) : ℚ := a.getD 0

/-- JS division of a (possibly `NaN`) sum by an integer count.  A `NaN`
numerator or a zero denominator yields a non-finite result (`none`). -/
def jsDiv (s : JSNum) (n : ℕ) : JSNum :=
  match s with
  | some x => if n = 0 then none else some (x / n)
  | none => none

/-- JS `s || d` for strings: the empty string is the falsy string. -/
def strOr (s d : String) : String := if s = "" then d else s

/-- JS `String.prototype.toUpperCase`, which agrees with `Char.toUpper` on
the basic latin letters the dataset uses. -/
def jsUpper (s : String) : String := ⟨s.data.map Char.toUpper⟩

/-- JS `String.prototype.toLowerCase` on basic latin letters. -/
def jsLower (s : String) : String := ⟨s.data.map Char.toLower⟩

/-- JS `array.join(sep)`. -/
def joinSep (sep : String) : List String → String
  | [] => ""
  | [x] => x
  | x :: xs => x ++ sep ++ joinSep sep xs

/-- Sort key of a JS numeric value: `NaN` is ordered below every number
(JS leaves comparator `NaN` behaviour unspecified; no claim depends on it). -/
def jsKey (x : JSNum) : WithBot ℚ :=
  match x with
  | none => ⊥
  | some q => (q : WithBot ℚ)

/-- One telecom observation, with the fields the dashboard reads
(`data.json` record).  Measure fields are `JSNum` so that absent or
non-numeric values can be represented. -/
structure Record where
  state : String
  city : String
  area : String
  operator : String
  network_type : String
  year : ℤ
  month : ℤ
  hour : ℤ
  is_peak_hour : ℤ
  download_mbps : JSNum
  upload_mbps : JSNum
  latency_ms : JSNum
  confidence_score : JSNum
  latitude : JSNum
  longitude : JSNum
deriving DecidableEq

/-- JS object used as a keyed bucket map, in insertion order: `obj[k]` is
created as `f init` when `k` is absent, and updated in place to `f v` when
`k` already holds `v` (the source always creates a missing bucket and then
mutates it in the same loop iteration). -/
def upsert {κ β : Type} [DecidableEq κ] (k : κ) (init : β) (f : β → β) :
    List (κ × β) → List (κ × β)
  | [] => [(k, f init)]
  | p :: l => if p.1 = k then (p.1, f p.2) :: l else p :: upsert k init f l

/-- JS property lookup `obj[k]` on an association list. -/
def lookupA {κ β : Type} [DecidableEq κ] : List (κ × β) → κ → Option β
  | [], _ => none
  | p :: l, k => if p.1 = k then some p.2 else lookupA l k

/-- Sum of a numeric projection of the bucket values of a keyed map. -/
def sumBy {κ β : Type} (g : β → ℕ) (l : List (κ × β)) : ℕ :=
  (l.map fun p => g p.2).sum

/-- One grouping pass: fold the records into a keyed bucket map. -/
def groupFold {α κ β : Type} [DecidableEq κ] (key : α → κ) (init : α → β)
    (bump : α → β → β) (l : List α) (acc : List (κ × β)) : List (κ × β) :=
  l.foldl (fun a r => upsert (key r) (init r) (bump r) a) acc

/-! ### Record Store: filtering (`DataProcessor.applyFilters`,
`DataProcessor.updateFilter`, `TelecomDataService.filterData`) -/

/-- The user-dashboard filter state (`DataProcessor.filters`). -/
structure Filters where
  state : String
  city : String
  area : String
  network : String
  operator : String
deriving DecidableEq

/-- The filter predicate of `DataProcessor.applyFilters`, translated from its
early-return chain. -/
def recordMatches (f : Filters) (r : Record) : Bool :=
  if f.state ≠ "All" ∧ r.state ≠ f.state then false
  else if f.city ≠ "All" ∧ r.city ≠ f.city then false
  else if f.area ≠ "All" ∧ r.area ≠ f.area then false
  else if f.network ≠ "All" ∧ r.network_type ≠ f.network then false
  else if f.operator ≠ "All" ∧ r.operator ≠ f.operator then false
  else true

/-- `DataProcessor.applyFilters`, as a function of the raw data and the
filter state. -/
def applyFilters (f : Filters) (rawData : List Record) : List Record :=
  rawData.filter (recordMatches f)

/-- Assignment `this.filters[filterName] = value` on the user-dashboard
filter object (an unknown name leaves the five known dimensions unchanged). -/
def setFilterField (f : Filters) (name value : String) : Filters :=
  if name = "state" then { f with state := value }
  else if name = "city" then { f with city := value }
  else if name = "area" then { f with area := value }
  else if name = "network" then { f with network := value }
  else if name = "operator" then { f with operator := value }
  else f

/-- `DataProcessor.updateFilter`: set the named dimension, then reset the
dependent dimensions (`state` resets `city` and `area`; `city` resets
`area`). -/
def updateFilter (f : Filters) (name value : String) : Filters :=
  let f1 := setFilterField f name value
  if name = "state" then { f1 with city := "All", area := "All" }
  else if name = "city" then { f1 with area := "All" }
  else f1

/-- The admin-dashboard filter object (`AdminDashboardController.filters`,
consumed by `TelecomDataService.filterData`).  `year` is pre-parsed
(`none` = absent); `month_start = 0` models the falsy/absent month. -/
structure AdminFilters where
  state : String
  city : String
  operator : String
  network_type : String
  year : Option ℤ
  years : List ℤ
  month_start : ℤ
deriving DecidableEq

/-- The filter predicate of `TelecomDataService.filterData`, translated from
its early-return chain (a `&&` guard on a string dimension makes the empty
string impose no constraint). -/
def adminMatches (f : AdminFilters) (r : Record) : Bool :=
  if f.state ≠ "" ∧ f.state ≠ "All" ∧ r.state ≠ f.state then false
  else if f.city ≠ "" ∧ f.city ≠ "All" ∧ r.city ≠ f.city then false
  else if f.operator ≠ "" ∧ f.operator ≠ "All" ∧ r.operator ≠ f.operator then false
  else if f.network_type ≠ "" ∧ f.network_type ≠ "All" ∧ r.network_type ≠ f.network_type then false
  else if (match f.year with | some y => decide (r.year ≠ y) | none => false : Bool) then false
  else if f.years ≠ [] ∧ r.year ∉ f.years then false
  else if f.month_start ≠ 0 ∧ r.month ≠ f.month_start then false
  else true

/-- `TelecomDataService.filterData`. -/
def filterData (f : AdminFilters) (rawData : List Record) : List Record :=
  rawData.filter (adminMatches f)

/-! ### KPI & ranking calculator (`DataProcessor.calculateKPIs`,
`TelecomDataService.getAggregatedMetrics`) -/

/-- Per-operator running score bucket of `calculateKPIs` (`{ total, count }`).
The score contribution is guarded by `|| 0` in the source, so the total is a
genuine number. -/
structure ScoreBucket where
  total : ℚ
  count : ℕ
deriving DecidableEq

/-- Operator normalisation of `calculateKPIs`:
`(r.operator || 'Unknown').toUpperCase()`. -/
def opKey (r : Record) : String := jsUpper (strOr r.operator "Unknown")

/-- `operatorScores[op].total += (r.confidence_score || 0); ... .count += 1`. -/
def scoreBump (r : Record) (b : ScoreBucket) : ScoreBucket :=
  ⟨b.total + orZero r.confidence_score, b.count + 1⟩

/-- The `operatorScores` grouping of `calculateKPIs`. -/
def operatorScores (records : List Record) : List (String × ScoreBucket) :=
  groupFold opKey (fun _ => ⟨0, 0⟩) scoreBump records []

/-- Average score of an operator bucket (`data.total / data.count`). -/
def bucketAvg (b : ScoreBucket) : ℚ := b.total / (b.count : ℚ)

/-- Loop body of the best-operator selection:
`if (avgOpScore > bestScore) { bestScore = avgOpScore; bestOperator = op }`. -/
def bestKpiStep (acc : String × ℚ) (p : String × ScoreBucket) : String × ℚ :=
  if acc.2 < bucketAvg p.2 then (p.1, bucketAvg p.2) else acc

/-- The best-operator loop of `calculateKPIs`, with the source's
initialisation `bestOperator = 'N/A'; bestScore = 0`. -/
def kpiBest (bs : List (String × ScoreBucket)) : String × ℚ :=
  bs.foldl bestKpiStep ("N/A", 0)

/-- Result object of `DataProcessor.calculateKPIs`.  The source carries no
`avgLatency` or `totalRecords` field. -/
structure KPISnapshot where
  bestOperator : String
  avgDownload : JSNum
  avgUpload : JSNum
  avgScore : JSNum
deriving DecidableEq

/-- `DataProcessor.calculateKPIs`.  `download_mbps`/`upload_mbps` are summed
unguarded (an absent field poisons the average to `NaN`), while the score
sum is guarded by `|| 0`. -/
def calculateKPIs (records : List Record) : KPISnapshot :=
  if records.isEmpty then ⟨"N/A", some 0, some 0, some 0⟩
  else
    ⟨(kpiBest (operatorScores records)).1,
     jsDiv (records.foldl (fun s r => jsAdd s r.download_mbps) (some 0)) records.length,
     jsDiv (records.foldl (fun s r => jsAdd s r.upload_mbps) (some 0)) records.length,
     some ((records.foldl (fun s r => s + orZero r.confidence_score) 0) / (records.length : ℚ))⟩

/-- Result object of `TelecomDataService.getAggregatedMetrics` (all four
sums are guarded by `|| 0` in the source, so the averages are genuine
numbers). -/
structure AggregatedMetrics where
  avgDownload : ℚ
  avgUpload : ℚ
  avgLatency : ℚ
  avgNetworkScore : ℚ
  totalRecords : ℕ
deriving DecidableEq

/-- Accumulator of the `reduce` in `getAggregatedMetrics`. -/
structure AggSums where
  download : ℚ
  upload : ℚ
  latency : ℚ
  networkScore : ℚ
deriving DecidableEq

/-- Reduce step of `getAggregatedMetrics` (`acc.x += curr.x || 0`). -/
def aggStep (acc : AggSums) (r : Record) : AggSums :=
  ⟨acc.download + orZero r.download_mbps, acc.upload + orZero r.upload_mbps,
   acc.latency + orZero r.latency_ms, acc.networkScore + orZero r.confidence_score⟩

/-- `TelecomDataService.getAggregatedMetrics`: returns `null` (here `none`)
on empty input. -/
def getAggregatedMetrics (data : List Record) : Option AggregatedMetrics :=
  if data.isEmpty then none
  else
    some ⟨(data.foldl aggStep ⟨0, 0, 0, 0⟩).download / (data.length : ℚ),
          (data.foldl aggStep ⟨0, 0, 0, 0⟩).upload / (data.length : ℚ),
          (data.foldl aggStep ⟨0, 0, 0, 0⟩).latency / (data.length : ℚ),
          (data.foldl aggStep ⟨0, 0, 0, 0⟩).networkScore / (data.length : ℚ),
          data.length⟩

/-! ### Aggregation engine (`TelecomDataService.getChartData` and the
average extraction of the admin chart renderers) -/

/-- Peak/non-peak bucket (`{ peakSum, peakCount, nonPeakSum, nonPeakCount }`). -/
structure PeakBucket where
  peakSum : JSNum
  peakCount : ℕ
  nonPeakSum : JSNum
  nonPeakCount : ℕ
deriving DecidableEq

/-- Plain `{ sum, count }` bucket. -/
structure SumCount where
  sum : JSNum
  count : ℕ
deriving DecidableEq

/-- City bucket of `latencyByCityNet`: the source pre-creates exactly the
`'4G'` and `'5G'` cells. -/
structure CityNetBucket where
  g4 : SumCount
  g5 : SumCount
deriving DecidableEq

/-- Year bucket of `coverageGrowth` (`{ '4G': count, '5G': count }`). -/
structure CoverageBucket where
  c4 : ℕ
  c5 : ℕ
deriving DecidableEq

/-- Accumulate measure `v` into the peak or non-peak side depending on
`r.is_peak_hour === 1`. -/
def peakBump (v : JSNum) (r : Record) (b : PeakBucket) : PeakBucket :=
  if r.is_peak_hour = 1 then
    { b with peakSum := jsAdd b.peakSum v, peakCount := b.peakCount + 1 }
  else
    { b with nonPeakSum := jsAdd b.nonPeakSum v, nonPeakCount := b.nonPeakCount + 1 }

/-- Accumulate latency into the `'4G'`/`'5G'` cell; any other network type
falls through the source's existence check and is not counted. -/
def cityNetBump (r : Record) (b : CityNetBucket) : CityNetBucket :=
  if r.network_type = "4G" then { b with g4 := ⟨jsAdd b.g4.sum r.latency_ms, b.g4.count + 1⟩ }
  else if r.network_type = "5G" then { b with g5 := ⟨jsAdd b.g5.sum r.latency_ms, b.g5.count + 1⟩ }
  else b

/-- Count a record into the `'4G'`/`'5G'` coverage counter; any other
network type fails the source's `!== undefined` check and is not counted. -/
def coverageBump (r : Record) (b : CoverageBucket) : CoverageBucket :=
  if r.network_type = "4G" then { b with c4 := b.c4 + 1 }
  else if r.network_type = "5G" then { b with c5 := b.c5 + 1 }
  else b

/-- `bucket.sum += v; bucket.count++` (unguarded measure add). -/
def sumCountBump (v : JSNum) (b : SumCount) : SumCount := ⟨jsAdd b.sum v, b.count + 1⟩

/-- The six groupings built by one pass of `getChartData`. -/
structure ChartData where
  downloadByOpPeak : List (String × PeakBucket)
  latencyByCityNet : List (String × CityNetBucket)
  coverageGrowth : List (ℤ × CoverageBucket)
  downloadByYearOp : List (ℤ × List (String × SumCount))
  latencyByYearPeak : List (ℤ × PeakBucket)
  scoreByOp : List (String × SumCount)
deriving DecidableEq

/-- Freshly created peak/non-peak bucket. -/
def emptyPeak : PeakBucket := ⟨some 0, 0, some 0, 0⟩

/-- Freshly created `{ sum: 0, count: 0 }` bucket. -/
def emptyCell : SumCount := ⟨some 0, 0⟩

/-- Freshly created city bucket with its `'4G'` and `'5G'` cells. -/
def emptyCityNet : CityNetBucket := ⟨emptyCell, emptyCell⟩

/-- One iteration of the `data.forEach` of `getChartData`, updating all six
groupings. -/
def chartStep (acc : ChartData) (r : Record) : ChartData :=
  { downloadByOpPeak :=
      upsert r.operator emptyPeak (peakBump r.download_mbps r) acc.downloadByOpPeak,
    latencyByCityNet := upsert r.city emptyCityNet (cityNetBump r) acc.latencyByCityNet,
    coverageGrowth := upsert r.year ⟨0, 0⟩ (coverageBump r) acc.coverageGrowth,
    downloadByYearOp :=
      upsert r.year []
        (fun inner => upsert r.operator emptyCell (sumCountBump r.download_mbps) inner)
        acc.downloadByYearOp,
    latencyByYearPeak := upsert r.year emptyPeak (peakBump r.latency_ms r) acc.latencyByYearPeak,
    scoreByOp := upsert r.operator emptyCell (sumCountBump r.confidence_score) acc.scoreByOp }

/-- `TelecomDataService.getChartData`. -/
def getChartData (data : List Record) : ChartData :=
  data.foldl chartStep ⟨[], [], [], [], [], []⟩

/-- Peak average drawn by `renderDownloadOpChart`/`renderLatencyYearChart`:
`b.peakCount ? b.peakSum / b.peakCount : 0`. -/
def peakAverage (b : PeakBucket) : JSNum :=
  if b.peakCount = 0 then some 0 else jsDiv b.peakSum b.peakCount

/-- Non-peak average drawn by the same renderers. -/
def nonPeakAverage (b : PeakBucket) : JSNum :=
  if b.nonPeakCount = 0 then some 0 else jsDiv b.nonPeakSum b.nonPeakCount

/-- Cell average drawn by `renderLatencyCityChart`/`renderScoreOpChart`:
`c.count ? c.sum / c.count : 0`. -/
def cellAverage (c : SumCount) : JSNum :=
  if c.count = 0 then some 0 else jsDiv c.sum c.count

/-! ### Area-wise table data and map data (`DataProcessor.getAreaWiseData`,
`DataProcessor.getMapData`) -/

/-- Bucket of `getAreaWiseData`, keyed by `area + '_' + operator`.  The
measure adds are unguarded in the source. -/
structure AreaBucket where
  area : String
  operator : String
  downloadTotal : JSNum
  uploadTotal : JSNum
  scoreTotal : JSNum
  count : ℕ
deriving DecidableEq

/-- Grouping key of `getAreaWiseData`. -/
def areaWiseKey (r : Record) : String := r.area ++ "_" ++ r.operator

/-- Freshly created area-wise bucket, carrying the record's raw (not
normalised) area and operator strings. -/
def areaWiseInit (r : Record) : AreaBucket := ⟨r.area, r.operator, some 0, some 0, some 0, 0⟩

/-- Accumulation step of `getAreaWiseData` (unguarded measure adds). -/
def areaWiseBump (r : Record) (b : AreaBucket) : AreaBucket :=
  { b with downloadTotal := jsAdd b.downloadTotal r.download_mbps,
           uploadTotal := jsAdd b.uploadTotal r.upload_mbps,
           scoreTotal := jsAdd b.scoreTotal r.confidence_score,
           count := b.count + 1 }

/-- The bucket map of `getAreaWiseData`. -/
def areaWiseBuckets (records : List Record) : List (String × AreaBucket) :=
  groupFold areaWiseKey areaWiseInit areaWiseBump records []

/-- One row of the area-wise table. -/
structure AreaRow where
  area : String
  operator : String
  avgDownload : JSNum
  avgUpload : JSNum
  avgScore : JSNum
deriving DecidableEq

/-- Row conversion of `getAreaWiseData` (bucket counts are always positive,
so the divisions are by the record count of the bucket). -/
def rowOfBucket (b : AreaBucket) : AreaRow :=
  ⟨b.area, b.operator, jsDiv b.downloadTotal b.count, jsDiv b.uploadTotal b.count,
   jsDiv b.scoreTotal b.count⟩

/-- The descending-score comparator `parseFloat(b.avgScore) -
parseFloat(a.avgScore)` of `getAreaWiseData`, as a total Boolean order. -/
def scoreDescLe (a b : AreaRow) : Bool := decide (jsKey b.avgScore ≤ jsKey a.avgScore)

/-- `DataProcessor.getAreaWiseData`: bucket rows sorted by average score
descending. -/
def getAreaWiseData (records : List Record) : List AreaRow :=
  ((areaWiseBuckets records).map fun p => rowOfBucket p.2).mergeSort scoreDescLe

/-- Area bucket of `getMapData`.  Coordinates and the city/state labels come
from the first record of the area; operators form an insertion-ordered set. -/
structure GeoBucket where
  area : String
  city : String
  state : String
  lat : JSNum
  lng : JSNum
  scoreTotal : JSNum
  count : ℕ
  operators : List String
deriving DecidableEq

/-- JS `Set.prototype.add`: keeps insertion order, ignores duplicates. -/
def setAdd (s : List String) (x : String) : List String := if x ∈ s then s else s ++ [x]

/-- Freshly created map bucket for a record's area. -/
def geoInit (r : Record) : GeoBucket :=
  ⟨r.area, r.city, r.state, r.latitude, r.longitude, some 0, 0, []⟩

/-- Accumulation step of `getMapData` (unguarded score add; the raw operator
string joins the set). -/
def geoBump (r : Record) (b : GeoBucket) : GeoBucket :=
  { b with scoreTotal := jsAdd b.scoreTotal r.confidence_score, count := b.count + 1,
           operators := setAdd b.operators r.operator }

/-- The per-area bucket map of `getMapData`. -/
def geoBuckets (records : List Record) : List (String × GeoBucket) :=
  groupFold (fun r => r.area) geoInit geoBump records []

/-- One map marker summary produced by `getMapData`. -/
structure GeoSummary where
  area : String
  city : String
  state : String
  lat : JSNum
  lng : JSNum
  avgScore : JSNum
  operators : String
deriving DecidableEq

/-- `DataProcessor.getMapData`. -/
def getMapData (records : List Record) : List GeoSummary :=
  (geoBuckets records).map fun p =>
    ⟨p.2.area, p.2.city, p.2.state, p.2.lat, p.2.lng, jsDiv p.2.scoreTotal p.2.count,
     joinSep ", " p.2.operators⟩

/-! ### Map per-area best operator (`MapManager.updateMap`) -/

/-- Per-operator bucket of the map's `areaOperators` grouping
(`{ total, count }`; the score add is unguarded in the source). -/
structure MapOpBucket where
  total : JSNum
  count : ℕ
deriving DecidableEq

/-- `areaOperators[area][op].total += r.confidence_score; ... .count += 1`. -/
def mapOpBump (r : Record) (b : MapOpBucket) : MapOpBucket :=
  ⟨jsAdd b.total r.confidence_score, b.count + 1⟩

/-- The nested area → operator grouping of `MapManager.updateMap`, built
from the filtered records with the raw (not normalised) operator string. -/
def areaOperators (records : List Record) : List (String × List (String × MapOpBucket)) :=
  groupFold (fun r => r.area) (fun _ => [])
    (fun r inner => upsert r.operator ⟨some 0, 0⟩ (mapOpBump r) inner) records []

/-- Average score of a map operator bucket (`total / count`). -/
def mapBucketAvg (b : MapOpBucket) : JSNum := jsDiv b.total b.count

/-- Loop body of the per-area best-operator selection.  The source tests
`avg > bestScore`; a `NaN` average fails that test, so `bestScore` is only
ever assigned a finite number and is carried as `ℚ`. -/
def bestMapStep (acc : Option String × ℚ) (p : String × MapOpBucket) : Option String × ℚ :=
  match mapBucketAvg p.2 with
  | some avg => if acc.2 < avg then (some p.1, avg) else acc
  | none => acc

/-- The operator buckets the map holds for one area (`areaOperators[area]`,
empty when the area is absent). -/
def areaBuckets (records : List Record) (area : String) : List (String × MapOpBucket) :=
  (lookupA (areaOperators records) area).getD []

/-- The map's best operator for an area, with the source's initialisation
`bestOp = null; bestScore = 0` (a `none` result is displayed as `'N/A'`). -/
def bestOperatorForArea (records : List Record) (area : String) : Option String :=
  ((areaBuckets records area).foldl bestMapStep (none, 0)).1

/-! ### Insight classification (`InsightsManager.renderInsights`,
Operator Analysis branch) -/

/-- The three-way operator-stability classification of the
`"Operator Analysis"` insight branch. -/
def insightStabilityTrend (down up lat : ℚ) : String :=
  if 150 < down ∧ 40 < up ∧ lat < 40 then "stable"
  else if down < 100 ∧ up < 30 ∧ 60 < lat then "unstable"
  else "neutral"

/-! ### Table sorting (`TableManager.applySorting`) -/

/-- The comparator of `TableManager.applySorting` as a total Boolean order:
string columns compare the lower-cased text, numeric columns compare the
parsed average; `direction` flips the order; an unknown column compares
everything equal. -/
def sortLe (column direction : String) (a b : AreaRow) : Bool :=
  if column = "area" then
    (if direction = "asc" then decide (jsLower a.area ≤ jsLower b.area)
     else decide (jsLower b.area ≤ jsLower a.area))
  else if column = "operator" then
    (if direction = "asc" then decide (jsLower a.operator ≤ jsLower b.operator)
     else decide (jsLower b.operator ≤ jsLower a.operator))
  else if column = "download" then
    (if direction = "asc" then decide (jsKey a.avgDownload ≤ jsKey b.avgDownload)
     else decide (jsKey b.avgDownload ≤ jsKey a.avgDownload))
  else if column = "upload" then
    (if direction = "asc" then decide (jsKey a.avgUpload ≤ jsKey b.avgUpload)
     else decide (jsKey b.avgUpload ≤ jsKey a.avgUpload))
  else if column = "score" then
    (if direction = "asc" then decide (jsKey a.avgScore ≤ jsKey b.avgScore)
     else decide (jsKey b.avgScore ≤ jsKey a.avgScore))
  else true

/-- `TableManager.applySorting` (stable sort of the table rows under the
current column/direction). -/
def applySorting (rows : List AreaRow) (column direction : String) : List AreaRow :=
  rows.mergeSort (sortLe column direction)

/-! ### Sample data used by witnesses and counterexamples -/

/-- A well-formed sample record. -/
def rec0 : Record :=
  ⟨"Karnataka", "Bengaluru", "Indiranagar", "Jio", "4G", 2022, 1, 10, 1,
   some 50, some 10, some 30, some (9/10), some 12, some 77⟩

/-- A record whose `confidence_score` field is absent. -/
def recNoScore : Record := { rec0 with confidence_score := none }

/-- A record with a network type other than `4G`/`5G`. -/
def rec3G : Record := { rec0 with network_type := "3G" }

/-- Second operator with a lower average score. -/
def recB : Record := { rec0 with operator := "Airtel", confidence_score := some (1/5) }

/-- Same operator as `rec0` up to letter case. -/
def recUp : Record := { rec0 with operator := "JIO", confidence_score := some (3/5) }

/-- A record whose confidence score is exactly `0`. -/
def recZero : Record := { rec0 with confidence_score := some 0 }

/-- Table rows with pairwise distinct scores. -/
def rowX : AreaRow := ⟨"A", "Jio", some 10, some 5, some 5⟩

/-- Second sample row. -/
def rowY : AreaRow := ⟨"B", "Airtel", some 20, some 6, some 7⟩

/-- Third sample row. -/
def rowZ : AreaRow := ⟨"C", "VI", some 30, some 7, some 3⟩

/-- The all-`"All"` user filter state. -/
def allFilters : Filters := ⟨"All", "All", "All", "All", "All"⟩

/-- The admin filter state with no active constraint. -/
def allAdminFilters : AdminFilters := ⟨"All", "All", "All", "All", none, [], 0⟩

/-! ## Association-list and fold lemmas -/

theorem lookupA_upsert_self {κ β : Type} [DecidableEq κ] (k : κ) (init : β)
    (f : β → β) (l : List (κ × β)) :
    lookupA (upsert k init f l) k = some (f ((lookupA l k).getD init)) := by
  induction l with
  | nil => simp [upsert, lookupA]
  | cons p l ih =>
    by_cases h : p.1 = k
    · simp [upsert, lookupA, h]
    · simp [upsert, lookupA, h, ih]

theorem lookupA_upsert_ne {κ β : Type} [DecidableEq κ] {k k' : κ} (init : β)
    (f : β → β) (l : List (κ × β)) (h : k' ≠ k) :
    lookupA (upsert k init f l) k' = lookupA l k' := by
  induction l with
  | nil =>
    simp only [upsert, lookupA]
    rw [if_neg (fun hc => h hc.symm)]
  | cons p l ih =>
    simp only [upsert]
    by_cases hp : p.1 = k
    · rw [if_pos hp]
      simp only [lookupA]
      by_cases hq : p.1 = k'
      · exact absurd (hq.symm.trans hp) h
      · rw [if_neg hq, if_neg hq]
    · rw [if_neg hp]
      simp only [lookupA]
      by_cases hq : p.1 = k'
      · rw [if_pos hq, if_pos hq]
      · rw [if_neg hq, if_neg hq]
        exact ih

theorem sumBy_upsert {κ β : Type} [DecidableEq κ] (g : β → ℕ) (k : κ)
    (init : β) (f : β → β) (l : List (κ × β)) (c : ℕ) (h0 : g init = 0)
    (hf : ∀ b, g (f b) = g b + c) :
    sumBy g (upsert k init f l) = sumBy g l + c := by
  induction l with
  | nil => simp [upsert, sumBy, hf, h0]
  | cons p l ih =>
    by_cases h : p.1 = k
    · simp only [upsert, if_pos h, sumBy, List.map_cons, List.sum_cons]
      rw [hf]
      omega
    · simp only [upsert, if_neg h, sumBy, List.map_cons, List.sum_cons]
      simp only [sumBy] at ih
      omega

theorem keys_upsert {κ β : Type} [DecidableEq κ] (k : κ) (init : β)
    (f : β → β) (l : List (κ × β)) :
    (upsert k init f l).map Prod.fst =
      if k ∈ l.map Prod.fst then l.map Prod.fst else l.map Prod.fst ++ [k] := by
  induction l with
  | nil => simp [upsert]
  | cons p l ih =>
    by_cases h : p.1 = k
    · simp [upsert, h]
    · have h' : ¬ k = p.1 := fun hc => h hc.symm
      by_cases hm : k ∈ l.map Prod.fst
      · simp [upsert, h, hm, ih, h']
      · simp [upsert, h, hm, ih, h']

theorem mem_upsert_val {κ β : Type} [DecidableEq κ] {P : β → Prop} {k : κ}
    {init : β} {f : β → β} {l : List (κ × β)}
    (hl : ∀ p ∈ l, P p.2) (hnew : P (f init)) (hstep : ∀ b, P b → P (f b)) :
    ∀ p ∈ upsert k init f l, P p.2 := by
  induction l with
  | nil =>
    intro p hp
    simp only [upsert, List.mem_singleton] at hp
    exact hp ▸ hnew
  | cons q l ih =>
    intro p hp
    by_cases h : q.1 = k
    · simp only [upsert, if_pos h, List.mem_cons] at hp
      rcases hp with hp | hp
      · exact hp ▸ hstep q.2 (hl q (by simp))
      · exact hl p (List.mem_cons_of_mem q hp)
    · simp only [upsert, if_neg h, List.mem_cons] at hp
      rcases hp with hp | hp
      · exact hp ▸ hl q (by simp)
      · exact ih (fun x hx => hl x (List.mem_cons_of_mem q hx)) p hp

theorem mem_upsert_key {κ β : Type} [DecidableEq κ] {P : κ → Prop} {k : κ}
    {init : β} {f : β → β} {l : List (κ × β)}
    (hl : ∀ p ∈ l, P p.1) (hk : P k) :
    ∀ p ∈ upsert k init f l, P p.1 := by
  induction l with
  | nil =>
    intro p hp
    simp only [upsert, List.mem_singleton] at hp
    exact hp ▸ hk
  | cons q l ih =>
    intro p hp
    by_cases h : q.1 = k
    · simp only [upsert, if_pos h, List.mem_cons] at hp
      rcases hp with hp | hp
      · exact hp ▸ hl q (by simp)
      · exact hl p (List.mem_cons_of_mem q hp)
    · simp only [upsert, if_neg h, List.mem_cons] at hp
      rcases hp with hp | hp
      · exact hp ▸ hl q (by simp)
      · exact ih (fun x hx => hl x (List.mem_cons_of_mem q hx)) p hp

theorem sumBy_groupFold {α κ β : Type} [DecidableEq κ] (key : α → κ)
    (init : α → β) (bump : α → β → β) (g : β → ℕ) (c : α → ℕ)
    (h0 : ∀ r, g (init r) = 0) (hb : ∀ r b, g (bump r b) = g b + c r) :
    ∀ (l : List α) (acc : List (κ × β)),
      sumBy g (groupFold key init bump l acc) = sumBy g acc + (l.map c).sum := by
  intro l
  induction l with
  | nil => intro acc; simp [groupFold]
  | cons r l ih =>
    intro acc
    have hcons : groupFold key init bump (r :: l) acc =
        groupFold key init bump l (upsert (key r) (init r) (bump r) acc) := rfl
    rw [hcons, ih, sumBy_upsert g _ _ _ _ (c r) (h0 r) (hb r)]
    simp only [List.map_cons, List.sum_cons]
    omega

theorem lookupA_groupFold {α κ β : Type} [DecidableEq κ] (key : α → κ)
    (i0 : β) (bump : α → β → β) :
    ∀ (l : List α) (acc : List (κ × β)) (k : κ),
      (lookupA (groupFold key (fun _ => i0) bump l acc) k).getD i0 =
        (l.filter fun r => decide (key r = k)).foldl (fun b r => bump r b)
          ((lookupA acc k).getD i0) := by
  intro l
  induction l with
  | nil => intro acc k; simp [groupFold]
  | cons r l ih =>
    intro acc k
    have hcons : groupFold key (fun _ => i0) bump (r :: l) acc =
        groupFold key (fun _ => i0) bump l (upsert (key r) i0 (bump r) acc) := rfl
    rw [hcons, ih]
    by_cases hk : key r = k
    · rw [List.filter_cons_of_pos (by simpa using hk), List.foldl_cons]
      subst hk
      rw [lookupA_upsert_self]
      simp
    · rw [List.filter_cons_of_neg (by simpa using hk),
        lookupA_upsert_ne _ _ _ (fun hc => hk hc.symm)]

theorem nodup_keys_groupFold {α κ β : Type} [DecidableEq κ] (key : α → κ)
    (init : α → β) (bump : α → β → β) :
    ∀ (l : List α) (acc : List (κ × β)), (acc.map Prod.fst).Nodup →
      ((groupFold key init bump l acc).map Prod.fst).Nodup := by
  intro l
  induction l with
  | nil => intro acc h; simpa [groupFold] using h
  | cons r l ih =>
    intro acc h
    have hcons : groupFold key init bump (r :: l) acc =
        groupFold key init bump l (upsert (key r) (init r) (bump r) acc) := rfl
    rw [hcons]
    refine ih _ ?_
    rw [keys_upsert]
    by_cases hm : key r ∈ acc.map Prod.fst
    · rw [if_pos hm]; exact h
    · rw [if_neg hm]
      simp [List.nodup_append, h, hm]

theorem mem_groupFold_key {α κ β : Type} [DecidableEq κ] {key : α → κ}
    {init : α → β} {bump : α → β → β} {P : κ → Prop} (hP : ∀ r, P (key r)) :
    ∀ (l : List α) (acc : List (κ × β)), (∀ p ∈ acc, P p.1) →
      ∀ p ∈ groupFold key init bump l acc, P p.1 := by
  intro l
  induction l with
  | nil => intro acc h; simpa [groupFold] using h
  | cons r l ih =>
    intro acc h
    have hcons : groupFold key init bump (r :: l) acc =
        groupFold key init bump l (upsert (key r) (init r) (bump r) acc) := rfl
    rw [hcons]
    exact ih _ (mem_upsert_key h (hP r))

theorem mem_groupFold_val {α κ β : Type} [DecidableEq κ] {key : α → κ}
    {init : α → β} {bump : α → β → β} {P : β → Prop}
    (hnew : ∀ r, P (bump r (init r))) (hstep : ∀ r b, P b → P (bump r b)) :
    ∀ (l : List α) (acc : List (κ × β)), (∀ p ∈ acc, P p.2) →
      ∀ p ∈ groupFold key init bump l acc, P p.2 := by
  intro l
  induction l with
  | nil => intro acc h; simpa [groupFold] using h
  | cons r l ih =>
    intro acc h
    have hcons : groupFold key init bump (r :: l) acc =
        groupFold key init bump l (upsert (key r) (init r) (bump r) acc) := rfl
    rw [hcons]
    exact ih _ (mem_upsert_val h (hnew r) (hstep r))

/-! ## Filter characterisation lemmas -/

theorem recordMatches_iff (f : Filters) (r : Record) :
    recordMatches f r = true ↔
      (f.state ≠ "All" → r.state = f.state) ∧ (f.city ≠ "All" → r.city = f.city) ∧
      (f.area ≠ "All" → r.area = f.area) ∧ (f.network ≠ "All" → r.network_type = f.network) ∧
      (f.operator ≠ "All" → r.operator = f.operator) := by
  unfold recordMatches
  split_ifs with h1 h2 h3 h4 h5
  · exact iff_of_false (by decide) (fun h => h1.2 (h.1 h1.1))
  · exact iff_of_false (by decide) (fun h => h2.2 (h.2.1 h2.1))
  · exact iff_of_false (by decide) (fun h => h3.2 (h.2.2.1 h3.1))
  · exact iff_of_false (by decide) (fun h => h4.2 (h.2.2.2.1 h4.1))
  · exact iff_of_false (by decide) (fun h => h5.2 (h.2.2.2.2 h5.1))
  · constructor
    · intro _
      refine ⟨fun ha => ?_, fun ha => ?_, fun ha => ?_, fun ha => ?_, fun ha => ?_⟩
      · by_contra hb; exact h1 ⟨ha, hb⟩
      · by_contra hb; exact h2 ⟨ha, hb⟩
      · by_contra hb; exact h3 ⟨ha, hb⟩
      · by_contra hb; exact h4 ⟨ha, hb⟩
      · by_contra hb; exact h5 ⟨ha, hb⟩
    · intro _; rfl

theorem adminMatches_iff (f : AdminFilters) (r : Record) :
    adminMatches f r = true ↔
      (f.state ≠ "" ∧ f.state ≠ "All" → r.state = f.state) ∧
      (f.city ≠ "" ∧ f.city ≠ "All" → r.city = f.city) ∧
      (f.operator ≠ "" ∧ f.operator ≠ "All" → r.operator = f.operator) ∧
      (f.network_type ≠ "" ∧ f.network_type ≠ "All" → r.network_type = f.network_type) ∧
      (∀ y, f.year = some y → r.year = y) ∧
      (f.years ≠ [] → r.year ∈ f.years) ∧
      (f.month_start ≠ 0 → r.month = f.month_start) := by
  obtain ⟨fs, fc, fo, fn, fy, fys, fm⟩ := f
  unfold adminMatches
  cases fy with
  | none =>
    simp only
    split_ifs with h1 h2 h3 h4 h5 h6 h7
    · exact iff_of_false (by decide) (fun h => h1.2.2 (h.1 ⟨h1.1, h1.2.1⟩))
    · exact iff_of_false (by decide) (fun h => h2.2.2 (h.2.1 ⟨h2.1, h2.2.1⟩))
    · exact iff_of_false (by decide) (fun h => h3.2.2 (h.2.2.1 ⟨h3.1, h3.2.1⟩))
    · exact iff_of_false (by decide) (fun h => h4.2.2 (h.2.2.2.1 ⟨h4.1, h4.2.1⟩))
    · exact absurd h5 (by decide)
    · exact iff_of_false (by decide) (fun h => h6.2 (h.2.2.2.2.2.1 h6.1))
    · exact iff_of_false (by decide) (fun h => h7.2 (h.2.2.2.2.2.2 h7.1))
    · constructor
      · intro _
        refine ⟨fun ha => ?_, fun ha => ?_, fun ha => ?_, fun ha => ?_,
          fun y hy => absurd hy (by simp), fun ha => ?_, fun ha => ?_⟩
        · by_contra hb; exact h1 ⟨ha.1, ha.2, hb⟩
        · by_contra hb; exact h2 ⟨ha.1, ha.2, hb⟩
        · by_contra hb; exact h3 ⟨ha.1, ha.2, hb⟩
        · by_contra hb; exact h4 ⟨ha.1, ha.2, hb⟩
        · by_contra hb; exact h6 ⟨ha, hb⟩
        · by_contra hb; exact h7 ⟨ha, hb⟩
      · intro _; rfl
  | some y0 =>
    simp only [decide_not]
    split_ifs with h1 h2 h3 h4 h5 h6 h7
    · exact iff_of_false (by decide) (fun h => h1.2.2 (h.1 ⟨h1.1, h1.2.1⟩))
    · exact iff_of_false (by decide) (fun h => h2.2.2 (h.2.1 ⟨h2.1, h2.2.1⟩))
    · exact iff_of_false (by decide) (fun h => h3.2.2 (h.2.2.1 ⟨h3.1, h3.2.1⟩))
    · exact iff_of_false (by decide) (fun h => h4.2.2 (h.2.2.2.1 ⟨h4.1, h4.2.1⟩))
    · refine iff_of_false (by decide) (fun h => ?_)
      have := h.2.2.2.2.1 y0 rfl
      simp only [Bool.not_eq_true', decide_eq_false_iff_not] at h5
      exact h5 this
    · exact iff_of_false (by decide) (fun h => h6.2 (h.2.2.2.2.2.1 h6.1))
    · exact iff_of_false (by decide) (fun h => h7.2 (h.2.2.2.2.2.2 h7.1))
    · constructor
      · intro _
        refine ⟨fun ha => ?_, fun ha => ?_, fun ha => ?_, fun ha => ?_,
          fun y hy => ?_, fun ha => ?_, fun ha => ?_⟩
        · by_contra hb; exact h1 ⟨ha.1, ha.2, hb⟩
        · by_contra hb; exact h2 ⟨ha.1, ha.2, hb⟩
        · by_contra hb; exact h3 ⟨ha.1, ha.2, hb⟩
        · by_contra hb; exact h4 ⟨ha.1, ha.2, hb⟩
        · simp only [Bool.not_eq_true', decide_eq_false_iff_not, not_not] at h5
          cases hy
          exact h5
        · by_contra hb; exact h6 ⟨ha, hb⟩
        · by_contra hb; exact h7 ⟨ha, hb⟩
      · intro _; rfl

/-! ## Claim theorems -/

/-- C1 counterexample: on empty input the admin KPI calculation
`TelecomDataService.getAggregatedMetrics` returns `null` (`none`), not a
snapshot whose numeric fields are all `0`. -/
theorem aggregatedMetrics_empty_returns_null :
    getAggregatedMetrics [] = none ∧ (getAggregatedMetrics []).isSome = false :=
  ⟨rfl, rfl⟩

/-- C1 (amended): on empty input `DataProcessor.calculateKPIs` returns the
snapshot with `bestOperator = "N/A"` and its three numeric fields
(`avgDownload`, `avgUpload`, `avgScore` — it carries no latency or record
count) all `0`, without error, while `TelecomDataService.getAggregatedMetrics`
returns `null` (`none`) instead of a snapshot. -/
theorem kpis_empty_snapshot :
    calculateKPIs [] = ⟨"N/A", some 0, some 0, some 0⟩ ∧ getAggregatedMetrics [] = none :=
  ⟨rfl, rfl⟩

/-- C2: both filter operations return exactly the records that satisfy every
non-`"All"` (and, for the admin filter, every active year/month) constraint,
the constraints combine by logical AND, the result with no active constraint
is the whole collection, and the result is always a subset of the raw
collection. -/
theorem filter_characterisation (f : Filters) (af : AdminFilters) (rawData : List Record) :
    (∀ r, r ∈ applyFilters f rawData ↔ r ∈ rawData ∧
      ((f.state ≠ "All" → r.state = f.state) ∧ (f.city ≠ "All" → r.city = f.city) ∧
       (f.area ≠ "All" → r.area = f.area) ∧ (f.network ≠ "All" → r.network_type = f.network) ∧
       (f.operator ≠ "All" → r.operator = f.operator)))
    ∧ (f.state = "All" → f.city = "All" → f.area = "All" → f.network = "All" →
        f.operator = "All" → applyFilters f rawData = rawData)
    ∧ applyFilters f rawData ⊆ rawData
    ∧ (∀ r, r ∈ filterData af rawData ↔ r ∈ rawData ∧
      ((af.state ≠ "" ∧ af.state ≠ "All" → r.state = af.state) ∧
       (af.city ≠ "" ∧ af.city ≠ "All" → r.city = af.city) ∧
       (af.operator ≠ "" ∧ af.operator ≠ "All" → r.operator = af.operator) ∧
       (af.network_type ≠ "" ∧ af.network_type ≠ "All" → r.network_type = af.network_type) ∧
       (∀ y, af.year = some y → r.year = y) ∧
       (af.years ≠ [] → r.year ∈ af.years) ∧
       (af.month_start ≠ 0 → r.month = af.month_start)))
    ∧ (af.state = "All" → af.city = "All" → af.operator = "All" → af.network_type = "All" →
        af.year = none → af.years = [] → af.month_start = 0 → filterData af rawData = rawData)
    ∧ filterData af rawData ⊆ rawData := by
  refine ⟨fun r => ?_, ?_, ?_, fun r => ?_, ?_, ?_⟩
  · rw [applyFilters, List.mem_filter, recordMatches_iff]
  · intro h1 h2 h3 h4 h5
    refine List.filter_eq_self.mpr fun r _ => (recordMatches_iff f r).mpr ?_
    exact ⟨fun hc => absurd h1 hc, fun hc => absurd h2 hc, fun hc => absurd h3 hc,
      fun hc => absurd h4 hc, fun hc => absurd h5 hc⟩
  · exact (List.filter_sublist rawData).subset
  · rw [filterData, List.mem_filter, adminMatches_iff]
  · intro h1 h2 h3 h4 h5 h6 h7
    refine List.filter_eq_self.mpr fun r _ => (adminMatches_iff af r).mpr ?_
    refine ⟨fun hc => absurd h1 hc.2, fun hc => absurd h2 hc.2, fun hc => absurd h3 hc.2,
      fun hc => absurd h4 hc.2, fun y hy => ?_, fun hc => absurd h6 hc, fun hc => absurd h7 hc⟩
    rw [h5] at hy
    exact absurd hy (by simp)
  · exact (List.filter_sublist rawData).subset

/-- C2 witness: at concrete inputs, the all-`"All"` state returns the whole
collection and a record passes the admin filter with no active constraint. -/
theorem filter_characterisation_witness :
    applyFilters allFilters [rec0] = [rec0] ∧ rec0 ∈ filterData allAdminFilters [rec0] := by
  have h := filter_characterisation allFilters allAdminFilters [rec0]
  refine ⟨h.2.1 rfl rfl rfl rfl rfl, (h.2.2.2.1 rec0).mpr ?_⟩
  refine ⟨List.mem_singleton.mpr rfl, ?_⟩
  refine ⟨fun hc => absurd rfl hc.2, fun hc => absurd rfl hc.2, fun hc => absurd rfl hc.2,
    fun hc => absurd rfl hc.2, fun y hy => by exact absurd hy (by simp [allAdminFilters]),
    fun hc => absurd rfl hc, fun hc => absurd rfl hc⟩

/-- C6: the operator-stability classification returns `"stable"` exactly when
download > 150, upload > 40 and latency < 40; `"unstable"` exactly when
download < 100, upload < 30 and latency > 60; and `"neutral"` in every other
case. -/
theorem insightStability_cases (down up lat : ℚ) :
    (insightStabilityTrend down up lat = "stable" ↔ 150 < down ∧ 40 < up ∧ lat < 40) ∧
    (insightStabilityTrend down up lat = "unstable" ↔ down < 100 ∧ up < 30 ∧ 60 < lat) ∧
    (insightStabilityTrend down up lat = "neutral" ↔
      ¬(150 < down ∧ 40 < up ∧ lat < 40) ∧ ¬(down < 100 ∧ up < 30 ∧ 60 < lat)) := by
  have hsu : ("stable" : String) ≠ "unstable" := by decide
  have hsn : ("stable" : String) ≠ "neutral" := by decide
  have hun : ("unstable" : String) ≠ "neutral" := by decide
  unfold insightStabilityTrend
  split_ifs with h1 h2
  · refine ⟨⟨fun _ => h1, fun _ => rfl⟩, ⟨fun hc => absurd hc hsu, fun hc => ?_⟩,
      ⟨fun hc => absurd hc hsn, fun hc => absurd h1 hc.1⟩⟩
    obtain ⟨a1, a2, a3⟩ := h1
    obtain ⟨b1, b2, b3⟩ := hc
    linarith
  · exact ⟨⟨fun hc => absurd hc.symm hsu, fun hc => absurd hc h1⟩, ⟨fun _ => h2, fun _ => rfl⟩,
      ⟨fun hc => absurd hc hun, fun hc => absurd h2 hc.2⟩⟩
  · exact ⟨⟨fun hc => absurd hc.symm hsn, fun hc => absurd hc h1⟩,
      ⟨fun hc => absurd hc.symm hun, fun hc => absurd hc h2⟩,
      ⟨fun _ => ⟨h1, h2⟩, fun _ => rfl⟩⟩

/-- C6 witness: the three sample points of the specification evaluate to
stable, unstable and neutral respectively. -/
theorem insightStability_cases_witness :
    insightStabilityTrend 200 50 20 = "stable" ∧
    insightStabilityTrend 50 10 80 = "unstable" ∧
    insightStabilityTrend 120 35 50 = "neutral" :=
  ⟨(insightStability_cases 200 50 20).1.mpr (by norm_num),
   (insightStability_cases 50 10 80).2.1.mpr (by norm_num),
   (insightStability_cases 120 35 50).2.2.mpr (by norm_num)⟩

/-- C9: updating the `state` dimension stores the value and resets both
`city` and `area` to `"All"`; updating the `city` dimension stores the value
and resets `area` to `"All"`; so a dependent dimension never keeps a value
invalidated by its parent after an update. -/
theorem updateFilter_resets (f : Filters) (v : String) :
    (updateFilter f "state" v).state = v ∧ (updateFilter f "state" v).city = "All" ∧
    (updateFilter f "state" v).area = "All" ∧
    (updateFilter f "city" v).city = v ∧ (updateFilter f "city" v).area = "All" ∧
    (updateFilter f "city" v).state = f.state :=
  ⟨rfl, rfl, rfl, rfl, rfl, rfl⟩

/-! ## Chart grouping component lemmas -/

theorem foldl_chartStep_downloadByOpPeak : ∀ (l : List Record) (acc : ChartData),
    (l.foldl chartStep acc).downloadByOpPeak =
      groupFold (fun r => r.operator) (fun _ => emptyPeak)
        (fun r => peakBump r.download_mbps r) l acc.downloadByOpPeak := by
  intro l
  induction l with
  | nil => intro acc; rfl
  | cons r l ih =>
    intro acc
    rw [List.foldl_cons, ih]
    rfl

theorem foldl_chartStep_latencyByCityNet : ∀ (l : List Record) (acc : ChartData),
    (l.foldl chartStep acc).latencyByCityNet =
      groupFold (fun r => r.city) (fun _ => emptyCityNet) cityNetBump l acc.latencyByCityNet := by
  intro l
  induction l with
  | nil => intro acc; rfl
  | cons r l ih =>
    intro acc
    rw [List.foldl_cons, ih]
    rfl

theorem foldl_chartStep_coverageGrowth : ∀ (l : List Record) (acc : ChartData),
    (l.foldl chartStep acc).coverageGrowth =
      groupFold (fun r => r.year) (fun _ => (⟨0, 0⟩ : CoverageBucket)) coverageBump l
        acc.coverageGrowth := by
  intro l
  induction l with
  | nil => intro acc; rfl
  | cons r l ih =>
    intro acc
    rw [List.foldl_cons, ih]
    rfl

theorem foldl_chartStep_downloadByYearOp : ∀ (l : List Record) (acc : ChartData),
    (l.foldl chartStep acc).downloadByYearOp =
      groupFold (fun r => r.year) (fun _ => [])
        (fun r inner => upsert r.operator emptyCell (sumCountBump r.download_mbps) inner) l
        acc.downloadByYearOp := by
  intro l
  induction l with
  | nil => intro acc; rfl
  | cons r l ih =>
    intro acc
    rw [List.foldl_cons, ih]
    rfl

theorem foldl_chartStep_latencyByYearPeak : ∀ (l : List Record) (acc : ChartData),
    (l.foldl chartStep acc).latencyByYearPeak =
      groupFold (fun r => r.year) (fun _ => emptyPeak)
        (fun r => peakBump r.latency_ms r) l acc.latencyByYearPeak := by
  intro l
  induction l with
  | nil => intro acc; rfl
  | cons r l ih =>
    intro acc
    rw [List.foldl_cons, ih]
    rfl

theorem foldl_chartStep_scoreByOp : ∀ (l : List Record) (acc : ChartData),
    (l.foldl chartStep acc).scoreByOp =
      groupFold (fun r => r.operator) (fun _ => emptyCell)
        (fun r => sumCountBump r.confidence_score) l acc.scoreByOp := by
  intro l
  induction l with
  | nil => intro acc; rfl
  | cons r l ih =>
    intro acc
    rw [List.foldl_cons, ih]
    rfl

theorem sum_map_const_one {α : Type} : ∀ l : List α, (l.map fun _ => (1 : ℕ)).sum = l.length := by
  intro l
  induction l with
  | nil => rfl
  | cons a l ih => simp [ih, Nat.add_comm]

theorem sum_map_ite_count {α : Type} (p : α → Bool) :
    ∀ l : List α, (l.map fun r => if p r then (1 : ℕ) else 0).sum = l.countP p := by
  intro l
  induction l with
  | nil => rfl
  | cons a l ih =>
    simp only [List.map_cons, List.sum_cons, List.countP_cons, ih]
    by_cases h : p a = true
    · simp [h, Nat.add_comm]
    · simp [h]

/-- C5 counterexample: a single record whose network type is `"3G"` is not
counted by the city × network-type grouping, so its bucket counts sum to `0`
while the input has one record. -/
theorem chart_counts_counterexample :
    sumBy (fun b => b.g4.count + b.g5.count) (getChartData [rec3G]).latencyByCityNet ≠
      ([rec3G] : List Record).length := by
  decide

/-- C5 (amended): for every record sequence, the bucket counts of the
operator × peak-flag, year × operator, year × peak-flag and operator-score
groupings sum to the number of input records; the counts of the
city × network-type and year × network-type groupings sum to the number of
records whose network type is `"4G"` or `"5G"` (other network types are
skipped by those two groupings). -/
theorem chart_counts (records : List Record) :
    sumBy (fun b => b.peakCount + b.nonPeakCount) (getChartData records).downloadByOpPeak =
      records.length ∧
    sumBy (fun inner => sumBy SumCount.count inner) (getChartData records).downloadByYearOp =
      records.length ∧
    sumBy (fun b => b.peakCount + b.nonPeakCount) (getChartData records).latencyByYearPeak =
      records.length ∧
    sumBy SumCount.count (getChartData records).scoreByOp = records.length ∧
    sumBy (fun b => b.g4.count + b.g5.count) (getChartData records).latencyByCityNet =
      records.countP (fun r => decide (r.network_type = "4G" ∨ r.network_type = "5G")) ∧
    sumBy (fun b => b.c4 + b.c5) (getChartData records).coverageGrowth =
      records.countP (fun r => decide (r.network_type = "4G" ∨ r.network_type = "5G")) := by
  have hpeak : ∀ (v : JSNum) (r : Record) (b : PeakBucket),
      (peakBump v r b).peakCount + (peakBump v r b).nonPeakCount =
        (b.peakCount + b.nonPeakCount) + 1 := by
    intro v r b
    unfold peakBump
    split_ifs <;> simp <;> omega
  have hnet : ∀ r : Record,
      (if decide (r.network_type = "4G" ∨ r.network_type = "5G") then (1 : ℕ) else 0) =
        if r.network_type = "4G" then 1 else if r.network_type = "5G" then 1 else 0 := by
    intro r
    by_cases h4 : r.network_type = "4G"
    · simp [h4]
    · by_cases h5 : r.network_type = "5G" <;> simp [h4, h5]
  have hinner : ∀ (r : Record) (inner : List (String × SumCount)),
      sumBy SumCount.count (upsert r.operator emptyCell (sumCountBump r.download_mbps) inner) =
        sumBy SumCount.count inner + 1 := by
    intro r inner
    exact sumBy_upsert SumCount.count _ _ _ _ 1 rfl (fun b => rfl)
  have hcity : ∀ (r : Record) (b : CityNetBucket),
      (cityNetBump r b).g4.count + (cityNetBump r b).g5.count =
        (b.g4.count + b.g5.count) +
          (if decide (r.network_type = "4G" ∨ r.network_type = "5G") then 1 else 0) := by
    intro r b
    rw [hnet r]
    unfold cityNetBump
    by_cases h4 : r.network_type = "4G"
    · simp [h4]
      omega
    · by_cases h5 : r.network_type = "5G" <;> simp [h4, h5]
      omega
  have hcov : ∀ (r : Record) (b : CoverageBucket),
      (coverageBump r b).c4 + (coverageBump r b).c5 =
        (b.c4 + b.c5) +
          (if decide (r.network_type = "4G" ∨ r.network_type = "5G") then 1 else 0) := by
    intro r b
    rw [hnet r]
    unfold coverageBump
    by_cases h4 : r.network_type = "4G"
    · simp [h4]
      omega
    · by_cases h5 : r.network_type = "5G" <;> simp [h4, h5]
      omega
  refine ⟨?_, ?_, ?_, ?_, ?_, ?_⟩
  · rw [getChartData, foldl_chartStep_downloadByOpPeak,
      sumBy_groupFold (fun r : Record => r.operator) (fun _ => emptyPeak)
        (fun r => peakBump r.download_mbps r) (fun b => b.peakCount + b.nonPeakCount)
        (fun _ => 1) (fun _ => rfl) (fun r b => hpeak r.download_mbps r b)]
    simp [sumBy, sum_map_const_one]
  · rw [getChartData, foldl_chartStep_downloadByYearOp,
      sumBy_groupFold (fun r : Record => r.year) (fun _ => [])
        (fun r inner => upsert r.operator emptyCell (sumCountBump r.download_mbps) inner)
        (fun inner => sumBy SumCount.count inner) (fun _ => 1) (fun _ => rfl) hinner]
    simp [sumBy, sum_map_const_one]
  · rw [getChartData, foldl_chartStep_latencyByYearPeak,
      sumBy_groupFold (fun r : Record => r.year) (fun _ => emptyPeak)
        (fun r => peakBump r.latency_ms r) (fun b => b.peakCount + b.nonPeakCount)
        (fun _ => 1) (fun _ => rfl) (fun r b => hpeak r.latency_ms r b)]
    simp [sumBy, sum_map_const_one]
  · rw [getChartData, foldl_chartStep_scoreByOp,
      sumBy_groupFold (fun r : Record => r.operator) (fun _ => emptyCell)
        (fun r => sumCountBump r.confidence_score) SumCount.count
        (fun _ => 1) (fun _ => rfl) (fun r b => rfl)]
    simp [sumBy, sum_map_const_one]
  · rw [getChartData, foldl_chartStep_latencyByCityNet,
      sumBy_groupFold (fun r : Record => r.city) (fun _ => emptyCityNet) cityNetBump
        (fun b => b.g4.count + b.g5.count)
        (fun r => if decide (r.network_type = "4G" ∨ r.network_type = "5G") then 1 else 0)
        (fun _ => rfl) hcity]
    simp only [sumBy, List.map_nil, List.sum_nil, Nat.zero_add]
    exact sum_map_ite_count _ records
  · rw [getChartData, foldl_chartStep_coverageGrowth,
      sumBy_groupFold (fun r : Record => r.year) (fun _ => (⟨0, 0⟩ : CoverageBucket))
        coverageBump (fun b => b.c4 + b.c5)
        (fun r => if decide (r.network_type = "4G" ∨ r.network_type = "5G") then 1 else 0)
        (fun _ => rfl) hcov]
    simp only [sumBy, List.map_nil, List.sum_nil, Nat.zero_add]
    exact sum_map_ite_count _ records

/-- C4 counterexample: a record with a missing `confidence_score` is summed
unguarded by `getChartData`, so its operator-score bucket sum is `NaN`
(`none`), not the `0` the claim's missing-field tolerance would give. -/
theorem chart_sum_nan_counterexample :
    (getChartData [recNoScore]).scoreByOp = [("Jio", ⟨none, 1⟩)] ∧
    (getChartData [recNoScore]).scoreByOp ≠ [("Jio", ⟨some 0, 1⟩)] := by
  exact ⟨rfl, by decide⟩

/-- C4 (amended): every average the chart renderers compute from a bucket
with count `0` is `0` (never `NaN`, never a division error); the area-wise
buckets always have a positive count, so their divisions are by a positive
record count; and `getAggregatedMetrics` tolerates missing measure fields
(its sums default them to `0`) and returns a snapshot for every non-empty
input.  However, the bucket sums of `getChartData` and `getAreaWiseData` add
the raw measure field, so a missing or non-numeric measure there yields a
`NaN` sum rather than being treated as `0`. -/
theorem bucket_average_guards (records : List Record) :
    (∀ p ∈ (getChartData records).downloadByOpPeak,
      (p.2.peakCount = 0 → peakAverage p.2 = some 0) ∧
      (p.2.nonPeakCount = 0 → nonPeakAverage p.2 = some 0)) ∧
    (∀ p ∈ (getChartData records).latencyByCityNet,
      (p.2.g4.count = 0 → cellAverage p.2.g4 = some 0) ∧
      (p.2.g5.count = 0 → cellAverage p.2.g5 = some 0)) ∧
    (∀ p ∈ (getChartData records).latencyByYearPeak,
      (p.2.peakCount = 0 → peakAverage p.2 = some 0) ∧
      (p.2.nonPeakCount = 0 → nonPeakAverage p.2 = some 0)) ∧
    (∀ p ∈ (getChartData records).scoreByOp, p.2.count = 0 → cellAverage p.2 = some 0) ∧
    (∀ p ∈ areaWiseBuckets records, 0 < p.2.count) ∧
    (records ≠ [] → ∃ m, getAggregatedMetrics records = some m) := by
  refine ⟨fun p _ => ⟨fun h0 => ?_, fun h0 => ?_⟩, fun p _ => ⟨fun h0 => ?_, fun h0 => ?_⟩,
    fun p _ => ⟨fun h0 => ?_, fun h0 => ?_⟩, fun p _ h0 => ?_, ?_, fun hne => ?_⟩
  · rw [peakAverage, if_pos h0]
  · rw [nonPeakAverage, if_pos h0]
  · rw [cellAverage, if_pos h0]
  · rw [cellAverage, if_pos h0]
  · rw [peakAverage, if_pos h0]
  · rw [nonPeakAverage, if_pos h0]
  · rw [cellAverage, if_pos h0]
  · show ∀ p ∈ groupFold areaWiseKey areaWiseInit areaWiseBump records [], 0 < p.2.count
    exact @mem_groupFold_val Record String AreaBucket _ areaWiseKey areaWiseInit areaWiseBump
      (fun b => 0 < b.count) (fun r => Nat.succ_pos _) (fun r b _ => Nat.succ_pos _) records []
      (by simp)
  · rw [getAggregatedMetrics, if_neg (by simpa [List.isEmpty_iff] using hne)]
    exact ⟨_, rfl⟩

/-- C4 witness: at a concrete input the area-wise bucket count is positive
and the aggregated metrics exist. -/
theorem bucket_average_guards_witness :
    (0 : ℕ) <
      (⟨"Indiranagar", "Jio", some (0 + 50), some (0 + 10), some (0 + 9/10), 1⟩ :
        AreaBucket).count ∧
    ∃ m, getAggregatedMetrics [rec0] = some m := by
  have h := bucket_average_guards [rec0]
  refine ⟨?_, h.2.2.2.2.2 (by simp)⟩
  have hb : areaWiseBuckets [rec0] =
      [("Indiranagar_Jio",
        ⟨"Indiranagar", "Jio", some (0 + 50), some (0 + 10), some (0 + 9/10), 1⟩)] := rfl
  exact h.2.2.2.2.1 _ (by rw [hb]; exact List.mem_singleton.mpr rfl)

/-! ## Best-operator selection lemmas -/

theorem bestKpiFold_spec : ∀ (l : List (String × ScoreBucket)) (b0 : String) (s0 : ℚ),
    (List.foldl bestKpiStep (b0, s0) l = (b0, s0) ∧ ∀ p ∈ l, bucketAvg p.2 ≤ s0)
    ∨ ∃ l₁ p l₂, l = l₁ ++ p :: l₂ ∧
        List.foldl bestKpiStep (b0, s0) l = (p.1, bucketAvg p.2) ∧ s0 < bucketAvg p.2 ∧
        (∀ q ∈ l₁, bucketAvg q.2 < bucketAvg p.2) ∧ ∀ q ∈ l₂, bucketAvg q.2 ≤ bucketAvg p.2 := by
  intro l
  induction l with
  | nil => intro b0 s0; exact Or.inl ⟨rfl, by simp⟩
  | cons hd tl ih =>
    intro b0 s0
    rw [List.foldl_cons]
    by_cases h : s0 < bucketAvg hd.2
    · have hstep : bestKpiStep (b0, s0) hd = (hd.1, bucketAvg hd.2) := by
        simp [bestKpiStep, h]
      rw [hstep]
      rcases ih hd.1 (bucketAvg hd.2) with ⟨heq, hall⟩ | ⟨l₁, p, l₂, hsplit, heq, hgt, hbef, haft⟩
      · refine Or.inr ⟨[], hd, tl, by simp, heq, h, by simp, hall⟩
      · refine Or.inr ⟨hd :: l₁, p, l₂, by simp [hsplit], heq, lt_trans h hgt, ?_, haft⟩
        intro q hq
        rcases List.mem_cons.mp hq with hq | hq
        · exact hq ▸ hgt
        · exact hbef q hq
    · have hstep : bestKpiStep (b0, s0) hd = (b0, s0) := by
        simp [bestKpiStep, h]
      rw [hstep]
      rcases ih b0 s0 with ⟨heq, hall⟩ | ⟨l₁, p, l₂, hsplit, heq, hgt, hbef, haft⟩
      · refine Or.inl ⟨heq, ?_⟩
        intro q hq
        rcases List.mem_cons.mp hq with hq | hq
        · exact hq ▸ not_lt.mp h
        · exact hall q hq
      · refine Or.inr ⟨hd :: l₁, p, l₂, by simp [hsplit], heq, hgt, ?_, haft⟩
        intro q hq
        rcases List.mem_cons.mp hq with hq | hq
        · exact hq ▸ lt_of_le_of_lt (not_lt.mp h) hgt
        · exact hbef q hq

/-- C3: the KPI best operator is selected over the per-operator average
confidence scores with a threshold initialised to `0` and a strict `>`
comparison.  Consequently: if every operator's average is `0` the result is
`"N/A"`; if some average is positive the result is an operator whose average
is positive and greatest (the first such, by the grouping's insertion
order); an operator whose average is strictly greatest and positive always
wins; and an operator with average exactly `0` never wins when any operator
has a positive average. -/
theorem kpis_bestOperator_rule (records : List Record) :
    ((∀ p ∈ operatorScores records, bucketAvg p.2 = 0) →
      (calculateKPIs records).bestOperator = "N/A") ∧
    ((∃ p ∈ operatorScores records, 0 < bucketAvg p.2) →
      ∃ p ∈ operatorScores records, (calculateKPIs records).bestOperator = p.1 ∧
        0 < bucketAvg p.2 ∧ ∀ q ∈ operatorScores records, bucketAvg q.2 ≤ bucketAvg p.2) ∧
    (∀ p ∈ operatorScores records, 0 < bucketAvg p.2 →
      (∀ q ∈ operatorScores records, q.1 ≠ p.1 → bucketAvg q.2 < bucketAvg p.2) →
      (calculateKPIs records).bestOperator = p.1) ∧
    (∀ p q, p ∈ operatorScores records → q ∈ operatorScores records →
      bucketAvg p.2 = 0 → 0 < bucketAvg q.2 →
      (calculateKPIs records).bestOperator ≠ p.1) := by
  cases records with
  | nil =>
    have hempty : operatorScores ([] : List Record) = [] := rfl
    refine ⟨fun _ => rfl, fun h => ?_, fun p hp => ?_, fun p q hp => ?_⟩
    · rw [hempty] at h
      exact absurd h (by simp)
    · rw [hempty] at hp
      exact absurd hp (by simp)
    · rw [hempty] at hp
      exact absurd hp (by simp)
  | cons r0 rest =>
    have hbest : (calculateKPIs (r0 :: rest)).bestOperator =
        (kpiBest (operatorScores (r0 :: rest))).1 := by
      rw [calculateKPIs, if_neg (by simp)]
    have hnodup : ((operatorScores (r0 :: rest)).map Prod.fst).Nodup :=
      nodup_keys_groupFold _ _ _ _ [] (by simp)
    rcases bestKpiFold_spec (operatorScores (r0 :: rest)) "N/A" 0 with
      ⟨heq, hall⟩ | ⟨l₁, p, l₂, hsplit, heq, hgt, hbef, haft⟩
    · have hres : (calculateKPIs (r0 :: rest)).bestOperator = "N/A" := by
        rw [hbest, kpiBest, heq]
      refine ⟨fun _ => hres, fun h => ?_, fun p hp hpos _ => ?_, fun p q hp hq h0 hqpos => ?_⟩
      · obtain ⟨p, hp, hpos⟩ := h
        exact absurd hpos (not_lt.mpr (hall p hp))
      · exact absurd hpos (not_lt.mpr (hall p hp))
      · exact absurd hqpos (not_lt.mpr (hall q hq))
    · have hmem : p ∈ operatorScores (r0 :: rest) := by
        rw [hsplit]
        exact List.mem_append.mpr (Or.inr (List.mem_cons_self p l₂))
      have hmax : ∀ q ∈ operatorScores (r0 :: rest), bucketAvg q.2 ≤ bucketAvg p.2 := by
        intro q hq
        rw [hsplit] at hq
        rcases List.mem_append.mp hq with hq | hq
        · exact le_of_lt (hbef q hq)
        · rcases List.mem_cons.mp hq with hq | hq
          · exact hq ▸ le_refl _
          · exact haft q hq
      have hres : (calculateKPIs (r0 :: rest)).bestOperator = p.1 := by
        rw [hbest, kpiBest, heq]
      refine ⟨fun hzero => ?_, fun _ => ⟨p, hmem, hres, hgt, hmax⟩,
        fun q hq hqpos huniq => ?_, fun x q hx hq hx0 hqpos => ?_⟩
      · exact absurd (hzero p hmem) (ne_of_gt hgt)
      · by_cases hk : p.1 = q.1
        · rw [hres, hk]
        · exact absurd (hmax q hq) (not_le.mpr (huniq p hmem hk))
      · rw [hres]
        intro hc
        have hpx : p = x := List.inj_on_of_nodup_map hnodup hmem hx hc
        have : bucketAvg q.2 ≤ 0 := by
          rw [← hx0, ← hpx]
          exact hmax q hq
        exact absurd hqpos (not_lt.mpr this)

/-- C3 witness: with operator `Jio` averaging `0.9` over two records and
`Airtel` averaging `0.2` over one, the best operator is the (normalised)
`"JIO"`. -/
theorem kpis_bestOperator_rule_witness :
    (calculateKPIs [rec0, rec0, recB]).bestOperator = "JIO" := by
  have hb : operatorScores [rec0, rec0, recB] =
      [("JIO", ⟨0 + 9/10 + 9/10, 2⟩), ("AIRTEL", ⟨0 + 1/5, 1⟩)] := rfl
  refine (kpis_bestOperator_rule [rec0, rec0, recB]).2.2.1
    ("JIO", ⟨0 + 9/10 + 9/10, 2⟩) (by rw [hb]; exact List.mem_cons_self _ _)
    (by norm_num [bucketAvg]) ?_
  intro q hq hne
  rw [hb] at hq
  rcases List.mem_cons.mp hq with hq | hq
  · exact absurd (congrArg Prod.fst hq) hne
  · rw [List.mem_singleton.mp hq]
    norm_num [bucketAvg]

theorem bestMapFold_spec : ∀ (l : List (String × MapOpBucket)) (b0 : Option String) (s0 : ℚ),
    (List.foldl bestMapStep (b0, s0) l = (b0, s0) ∧
      ∀ p ∈ l, ∀ x, mapBucketAvg p.2 = some x → x ≤ s0)
    ∨ ∃ l₁ p l₂ a, l = l₁ ++ p :: l₂ ∧ mapBucketAvg p.2 = some a ∧
        List.foldl bestMapStep (b0, s0) l = (some p.1, a) ∧ s0 < a ∧
        (∀ q ∈ l₁, ∀ x, mapBucketAvg q.2 = some x → x < a) ∧
        (∀ q ∈ l₂, ∀ x, mapBucketAvg q.2 = some x → x ≤ a) := by
  intro l
  induction l with
  | nil => intro b0 s0; exact Or.inl ⟨rfl, by simp⟩
  | cons hd tl ih =>
    intro b0 s0
    rw [List.foldl_cons]
    cases havg : mapBucketAvg hd.2 with
    | none =>
      have hstep : bestMapStep (b0, s0) hd = (b0, s0) := by
        simp [bestMapStep, havg]
      rw [hstep]
      rcases ih b0 s0 with ⟨heq, hall⟩ | ⟨l₁, p, l₂, a, hsplit, hpa, heq, hgt, hbef, haft⟩
      · refine Or.inl ⟨heq, ?_⟩
        intro q hq x hx
        rcases List.mem_cons.mp hq with hq | hq
        · rw [hq, havg] at hx
          exact absurd hx (by simp)
        · exact hall q hq x hx
      · refine Or.inr ⟨hd :: l₁, p, l₂, a, by simp [hsplit], hpa, heq, hgt, ?_, haft⟩
        intro q hq x hx
        rcases List.mem_cons.mp hq with hq | hq
        · rw [hq, havg] at hx
          exact absurd hx (by simp)
        · exact hbef q hq x hx
    | some a0 =>
      by_cases h : s0 < a0
      · have hstep : bestMapStep (b0, s0) hd = (some hd.1, a0) := by
          simp [bestMapStep, havg, h]
        rw [hstep]
        rcases ih (some hd.1) a0 with ⟨heq, hall⟩ | ⟨l₁, p, l₂, a, hsplit, hpa, heq, hgt, hbef, haft⟩
        · exact Or.inr ⟨[], hd, tl, a0, by simp, havg, heq, h, by simp, hall⟩
        · refine Or.inr ⟨hd :: l₁, p, l₂, a, by simp [hsplit], hpa, heq, lt_trans h hgt, ?_, haft⟩
          intro q hq x hx
          rcases List.mem_cons.mp hq with hq | hq
          · rw [hq, havg] at hx
            exact (Option.some.inj hx) ▸ hgt
          · exact hbef q hq x hx
      · have hstep : bestMapStep (b0, s0) hd = (b0, s0) := by
          simp [bestMapStep, havg, h]
        rw [hstep]
        rcases ih b0 s0 with ⟨heq, hall⟩ | ⟨l₁, p, l₂, a, hsplit, hpa, heq, hgt, hbef, haft⟩
        · refine Or.inl ⟨heq, ?_⟩
          intro q hq x hx
          rcases List.mem_cons.mp hq with hq | hq
          · rw [hq, havg] at hx
            exact (Option.some.inj hx) ▸ not_lt.mp h
          · exact hall q hq x hx
        · refine Or.inr ⟨hd :: l₁, p, l₂, a, by simp [hsplit], hpa, heq, hgt, ?_, haft⟩
          intro q hq x hx
          rcases List.mem_cons.mp hq with hq | hq
          · rw [hq, havg] at hx
            exact (Option.some.inj hx) ▸ lt_of_le_of_lt (not_lt.mp h) hgt
          · exact hbef q hq x hx

theorem areaBuckets_filter (records : List Record) (area : String) :
    areaBuckets records area =
      groupFold (fun r => r.operator) (fun _ => (⟨some 0, 0⟩ : MapOpBucket)) mapOpBump
        (records.filter fun r => decide (r.area = area)) [] := by
  have h := lookupA_groupFold (fun r : Record => r.area) ([] : List (String × MapOpBucket))
    (fun r inner => upsert r.operator ⟨some 0, 0⟩ (mapOpBump r) inner) records [] area
  exact h

/-- C7: the map's best operator for an area is computed only from that
area's records (restricting the input to the area's records changes
nothing), and it is selected over the per-operator average confidence
scores within the area with the same zero-initialised threshold, strict `>`
comparison and first-wins tie rule as the global KPI ranking: a returned
operator has a positive average that no other operator in the area exceeds
(every earlier operator is strictly below it), and when no operator in the
area has a positive finite average the result is `null` (displayed as
`"N/A"`). -/
theorem map_best_operator_per_area (records : List Record) (area : String) :
    (areaBuckets records area =
      areaBuckets (records.filter fun r => decide (r.area = area)) area) ∧
    (bestOperatorForArea records area =
      bestOperatorForArea (records.filter fun r => decide (r.area = area)) area) ∧
    (∀ op, bestOperatorForArea records area = some op →
      ∃ l₁ p l₂, areaBuckets records area = l₁ ++ p :: l₂ ∧ p.1 = op ∧
        ∃ a, mapBucketAvg p.2 = some a ∧ 0 < a ∧
          (∀ q ∈ l₁, ∀ x, mapBucketAvg q.2 = some x → x < a) ∧
          (∀ q ∈ l₂, ∀ x, mapBucketAvg q.2 = some x → x ≤ a)) ∧
    ((∀ q ∈ areaBuckets records area, ∀ x, mapBucketAvg q.2 = some x → x ≤ 0) →
      bestOperatorForArea records area = none) := by
  have hloc : areaBuckets records area =
      areaBuckets (records.filter fun r => decide (r.area = area)) area := by
    rw [areaBuckets_filter records area,
      areaBuckets_filter (records.filter fun r => decide (r.area = area)) area,
      List.filter_filter]
    congr 1
    simp
  refine ⟨hloc, ?_, ?_, ?_⟩
  · rw [bestOperatorForArea, bestOperatorForArea, hloc]
  · intro op hop
    rw [bestOperatorForArea] at hop
    rcases bestMapFold_spec (areaBuckets records area) none 0 with
      ⟨heq, hall⟩ | ⟨l₁, p, l₂, a, hsplit, hpa, heq, hgt, hbef, haft⟩
    · rw [heq] at hop
      exact absurd hop (by simp)
    · rw [heq] at hop
      exact ⟨l₁, p, l₂, hsplit, Option.some.inj hop, a, hpa, hgt, hbef, haft⟩
  · intro hall0
    rw [bestOperatorForArea]
    rcases bestMapFold_spec (areaBuckets records area) none 0 with
      ⟨heq, _⟩ | ⟨l₁, p, l₂, a, hsplit, hpa, heq, hgt, _, _⟩
    · rw [heq]
    · have hpmem : p ∈ areaBuckets records area := by
        rw [hsplit]
        exact List.mem_append.mpr (Or.inr (List.mem_cons_self p l₂))
      exact absurd hgt (not_lt.mpr (hall0 p hpmem a hpa))

/-- C7 witness: in an area whose only operator averages exactly `0`, the
map's best operator is `null`. -/
theorem map_best_operator_per_area_witness :
    bestOperatorForArea [recZero] "Indiranagar" = none := by
  have hb : areaBuckets [recZero] "Indiranagar" = [("Jio", ⟨some (0 + 0), 1⟩)] := rfl
  refine (map_best_operator_per_area [recZero] "Indiranagar").2.2.2 ?_
  intro q hq x hx
  rw [hb, List.mem_singleton] at hq
  rw [hq] at hx
  have : mapBucketAvg ⟨some (0 + 0), 1⟩ = some ((0 + 0) / (1 : ℚ)) := rfl
  rw [this] at hx
  have hx0 : x = (0 + 0) / (1 : ℚ) := (Option.some.inj hx).symm
  rw [hx0]
  norm_num

/-! ## Operator-name normalisation lemmas -/

theorem toNat_ofNat_valid (n : ℕ) (h : n.isValidChar) : (Char.ofNat n).toNat = n := by
  rw [Char.ofNat, dif_pos h]
  rfl

theorem char_toUpper_idem (c : Char) : Char.toUpper (Char.toUpper c) = Char.toUpper c := by
  unfold Char.toUpper
  by_cases h : c.toNat ≥ 97 ∧ c.toNat ≤ 122
  · have hv : Nat.isValidChar (c.toNat - 32) := by
      left
      omega
    have ht : (Char.ofNat (c.toNat - 32)).toNat = c.toNat - 32 :=
      toNat_ofNat_valid _ hv
    rw [if_pos h, ht, if_neg (by omega)]
  · rw [if_neg h, if_neg h]

theorem jsUpper_idem (s : String) : jsUpper (jsUpper s) = jsUpper s := by
  simp only [jsUpper, List.map_map]
  exact congrArg String.mk (List.map_congr_left (fun c _ => char_toUpper_idem c))

theorem jsUpper_empty_iff (s : String) : jsUpper s = "" ↔ s = "" := by
  constructor
  · intro h
    have hd := congrArg String.data h
    simp only [jsUpper] at hd
    rcases s with ⟨d⟩
    cases d with
    | nil => rfl
    | cons c cs => exact absurd hd (by simp)
  · intro h
    rw [h]
    rfl

theorem string_append_left_cancel {s t u : String} (h : s ++ t = s ++ u) : t = u := by
  have hd := congrArg String.data h
  simp only [String.data_append] at hd
  exact String.ext (List.append_cancel_left hd)

theorem bestOperator_upper (records : List Record) :
    jsUpper (calculateKPIs records).bestOperator = (calculateKPIs records).bestOperator := by
  have hkeys : ∀ p ∈ operatorScores records, jsUpper p.1 = p.1 := by
    have h := @mem_groupFold_key Record String ScoreBucket _ opKey (fun _ => ⟨0, 0⟩) scoreBump
      (fun k => jsUpper k = k) (fun r => jsUpper_idem (strOr r.operator "Unknown")) records []
      (by simp)
    exact h
  cases records with
  | nil => decide
  | cons r0 rest =>
    have hbest : (calculateKPIs (r0 :: rest)).bestOperator =
        (kpiBest (operatorScores (r0 :: rest))).1 := by
      rw [calculateKPIs, if_neg (by simp)]
    rcases bestKpiFold_spec (operatorScores (r0 :: rest)) "N/A" 0 with
      ⟨heq, _⟩ | ⟨l₁, p, l₂, hsplit, heq, _, _, _⟩
    · rw [hbest, kpiBest, heq]
      decide
    · rw [hbest, kpiBest, heq]
      exact hkeys p (by rw [hsplit]; exact List.mem_append.mpr (Or.inr (List.mem_cons_self p l₂)))

/-- C10: the KPI grouping upper-cases operator names (substituting
`"Unknown"` for a missing one), so records whose operator strings differ
only in case land in one best-operator bucket and the returned best operator
is always its own upper-casing (or `"N/A"`); the area-wise table grouping
and the map grouping use the raw operator string, so the same two records
produce two distinct table rows and two distinct operator entries on the
area's marker. -/
theorem operator_normalisation (r₁ r₂ : Record) (hop : r₁.operator ≠ r₂.operator)
    (hup : jsUpper r₁.operator = jsUpper r₂.operator) (harea : r₁.area = r₂.area) :
    opKey r₁ = opKey r₂ ∧
    ((operatorScores [r₁, r₂]).map fun p => (p.1, p.2.count)) = [(opKey r₁, 2)] ∧
    (∀ records : List Record,
      jsUpper (calculateKPIs records).bestOperator = (calculateKPIs records).bestOperator) ∧
    ((getAreaWiseData [r₁, r₂]).length = 2 ∧
      r₁.operator ∈ (getAreaWiseData [r₁, r₂]).map AreaRow.operator ∧
      r₂.operator ∈ (getAreaWiseData [r₁, r₂]).map AreaRow.operator) ∧
    (∃ g : GeoSummary, getMapData [r₁, r₂] = [g] ∧
      g.operators = r₁.operator ++ ", " ++ r₂.operator) := by
  have h1 : r₁.operator ≠ "" := by
    intro h
    have h2 : jsUpper r₂.operator = "" := by
      rw [← hup, h]
      rfl
    exact hop (h.trans ((jsUpper_empty_iff _).mp h2).symm)
  have h2 : r₂.operator ≠ "" := by
    intro h
    have h2 : jsUpper r₁.operator = "" := by
      rw [hup, h]
      rfl
    exact hop (((jsUpper_empty_iff _).mp h2).trans h.symm)
  have hkey : opKey r₁ = opKey r₂ := by
    rw [opKey, opKey, strOr, strOr, if_neg h1, if_neg h2]
    exact hup
  have hwkey : areaWiseKey r₁ ≠ areaWiseKey r₂ := by
    intro hc
    rw [areaWiseKey, areaWiseKey, harea] at hc
    exact hop (string_append_left_cancel hc)
  have hbuckets : areaWiseBuckets [r₁, r₂] =
      [(areaWiseKey r₁, areaWiseBump r₁ (areaWiseInit r₁)),
       (areaWiseKey r₂, areaWiseBump r₂ (areaWiseInit r₂))] := by
    simp only [areaWiseBuckets, groupFold, List.foldl_cons, List.foldl_nil]
    simp [upsert, hwkey]
  have hrows : getAreaWiseData [r₁, r₂] =
      List.mergeSort [rowOfBucket (areaWiseBump r₁ (areaWiseInit r₁)),
        rowOfBucket (areaWiseBump r₂ (areaWiseInit r₂))] scoreDescLe := by
    rw [getAreaWiseData, hbuckets]
    rfl
  have hgeo : geoBuckets [r₁, r₂] = [(r₁.area, geoBump r₂ (geoBump r₁ (geoInit r₁)))] := by
    simp only [geoBuckets, groupFold, List.foldl_cons, List.foldl_nil]
    simp [upsert, harea]
  have hs1 : setAdd [] r₁.operator = [r₁.operator] := by
    rw [setAdd, if_neg (by simp)]
    rfl
  have hs2 : setAdd [r₁.operator] r₂.operator = [r₁.operator, r₂.operator] := by
    rw [setAdd, if_neg]
    · rfl
    · simp only [List.mem_singleton]
      exact fun hc => hop hc.symm
  have hops : (geoBump r₂ (geoBump r₁ (geoInit r₁))).operators = [r₁.operator, r₂.operator] := by
    show setAdd (setAdd [] r₁.operator) r₂.operator = [r₁.operator, r₂.operator]
    rw [hs1, hs2]
  refine ⟨hkey, ?_, bestOperator_upper, ⟨?_, ?_, ?_⟩, ?_⟩
  · have hos : operatorScores [r₁, r₂] =
        [(opKey r₁, scoreBump r₂ (scoreBump r₁ ⟨0, 0⟩))] := by
      simp only [operatorScores, groupFold, List.foldl_cons, List.foldl_nil]
      rw [← hkey]
      simp [upsert]
    rw [hos]
    rfl
  · rw [hrows]
    simp
  · rw [hrows]
    refine List.mem_map.mpr ⟨rowOfBucket (areaWiseBump r₁ (areaWiseInit r₁)), ?_, rfl⟩
    rw [List.mem_mergeSort]
    simp
  · rw [hrows]
    refine List.mem_map.mpr ⟨rowOfBucket (areaWiseBump r₂ (areaWiseInit r₂)), ?_, rfl⟩
    rw [List.mem_mergeSort]
    simp
  · refine ⟨⟨r₁.area, r₁.city, r₁.state, r₁.latitude, r₁.longitude,
      jsDiv (geoBump r₂ (geoBump r₁ (geoInit r₁))).scoreTotal 2,
      joinSep ", " (geoBump r₂ (geoBump r₁ (geoInit r₁))).operators⟩, ?_, ?_⟩
    · rw [getMapData, hgeo]
      rfl
    · rw [hops]
      rfl

/-- C10 witness: two records whose operators are `"Jio"` and `"JIO"` share a
KPI bucket key but give two distinct area-wise table rows. -/
theorem operator_normalisation_witness :
    opKey rec0 = opKey recUp ∧ (getAreaWiseData [rec0, recUp]).length = 2 := by
  have h := operator_normalisation rec0 recUp (by decide) (by decide) rfl
  exact ⟨h.1, h.2.2.2.1.1⟩

/-! ## Sorting lemmas -/

theorem jsKey_inj {x y : JSNum} (h : jsKey x = jsKey y) : x = y := by
  cases x with
  | none =>
    cases y with
    | none => rfl
    | some q => exact absurd h.symm (by simp [jsKey])
  | some q =>
    cases y with
    | none => exact absurd h (by simp [jsKey])
    | some p =>
      simp only [jsKey, WithBot.coe_inj] at h
      rw [h]

/-- C8: sorting the area summaries by the score column descending and then
sorting the result ascending yields exactly the reversed descending order,
whenever the score values are pairwise distinct. -/
theorem sort_roundtrip (rows : List AreaRow)
    (hdist : (rows.map AreaRow.avgScore).Pairwise (fun a b => a ≠ b)) :
    applySorting (applySorting rows "score" "desc") "score" "asc" =
      (applySorting rows "score" "desc").reverse := by
  have hdesc : sortLe "score" "desc" =
      fun a b => decide (jsKey b.avgScore ≤ jsKey a.avgScore) := rfl
  have hasc : sortLe "score" "asc" =
      fun a b => decide (jsKey a.avgScore ≤ jsKey b.avgScore) := rfl
  have htransd : ∀ a b c : AreaRow, sortLe "score" "desc" a b = true →
      sortLe "score" "desc" b c = true → sortLe "score" "desc" a c = true := by
    rw [hdesc]
    intro a b c hab hbc
    simp only [decide_eq_true_eq] at *
    exact le_trans hbc hab
  have htotald : ∀ a b : AreaRow,
      (sortLe "score" "desc" a b || sortLe "score" "desc" b a) = true := by
    rw [hdesc]
    intro a b
    simp only [Bool.or_eq_true, decide_eq_true_eq]
    exact le_total _ _
  have htransa : ∀ a b c : AreaRow, sortLe "score" "asc" a b = true →
      sortLe "score" "asc" b c = true → sortLe "score" "asc" a c = true := by
    rw [hasc]
    intro a b c hab hbc
    simp only [decide_eq_true_eq] at *
    exact le_trans hab hbc
  have htotala : ∀ a b : AreaRow,
      (sortLe "score" "asc" a b || sortLe "score" "asc" b a) = true := by
    rw [hasc]
    intro a b
    simp only [Bool.or_eq_true, decide_eq_true_eq]
    exact le_total _ _
  have hsd : (applySorting rows "score" "desc").Pairwise
      (fun a b => jsKey b.avgScore ≤ jsKey a.avgScore) := by
    refine (@List.sorted_mergeSort AreaRow (sortLe "score" "desc") htransd htotald rows).imp ?_
    intro a b h
    rw [hdesc] at h
    exact of_decide_eq_true h
  have hperm : List.Perm (applySorting rows "score" "desc") rows := List.mergeSort_perm rows _
  have hdist_d : ((applySorting rows "score" "desc").map AreaRow.avgScore).Pairwise
      (fun a b => a ≠ b) :=
    ((hperm.map AreaRow.avgScore).pairwise_iff (fun hxy => Ne.symm hxy)).mpr hdist
  have hstrict_d : (applySorting rows "score" "desc").Pairwise
      (fun a b => jsKey b.avgScore < jsKey a.avgScore) := by
    refine (hsd.and (List.pairwise_map.mp hdist_d)).imp ?_
    intro a b h
    exact lt_of_le_of_ne h.1 (fun hc => h.2 (jsKey_inj hc).symm)
  have hrev : (applySorting rows "score" "desc").reverse.Pairwise
      (fun a b => jsKey a.avgScore < jsKey b.avgScore) :=
    List.pairwise_reverse.mpr hstrict_d
  have hperm_a : List.Perm (applySorting (applySorting rows "score" "desc") "score" "asc")
      (applySorting rows "score" "desc") := List.mergeSort_perm _ _
  have hsa : (applySorting (applySorting rows "score" "desc") "score" "asc").Pairwise
      (fun a b => jsKey a.avgScore ≤ jsKey b.avgScore) := by
    refine (@List.sorted_mergeSort AreaRow (sortLe "score" "asc") htransa htotala
      (applySorting rows "score" "desc")).imp ?_
    intro a b h
    rw [hasc] at h
    exact of_decide_eq_true h
  have hdist_a : ((applySorting (applySorting rows "score" "desc") "score" "asc").map
      AreaRow.avgScore).Pairwise (fun a b => a ≠ b) :=
    ((hperm_a.map AreaRow.avgScore).pairwise_iff (fun hxy => Ne.symm hxy)).mpr hdist_d
  have hstrict_a : (applySorting (applySorting rows "score" "desc") "score" "asc").Pairwise
      (fun a b => jsKey a.avgScore < jsKey b.avgScore) := by
    refine (hsa.and (List.pairwise_map.mp hdist_a)).imp ?_
    intro a b h
    exact lt_of_le_of_ne h.1 (fun hc => h.2 (jsKey_inj hc))
  have hp : List.Perm (applySorting (applySorting rows "score" "desc") "score" "asc")
      (applySorting rows "score" "desc").reverse :=
    hperm_a.trans (List.reverse_perm _).symm
  haveI : IsAntisymm AreaRow (fun a b => jsKey a.avgScore < jsKey b.avgScore) :=
    ⟨fun a b h1 h2 => ((lt_asymm h1) h2).elim⟩
  exact List.eq_of_perm_of_sorted hp hstrict_a hrev

/-- C8 witness: the round trip holds at three concrete rows with pairwise
distinct scores. -/
theorem sort_roundtrip_witness :
    applySorting (applySorting [rowX, rowY, rowZ] "score" "desc") "score" "asc" =
      (applySorting [rowX, rowY, rowZ] "score" "desc").reverse :=
  sort_roundtrip [rowX, rowY, rowZ] (by decide)

end Telecom
